import Mathlib

/-!
Verification development for the vnstock price API (`app.py`).

The embedding models:
* Python scalar values (`PyVal`) and the result of Python `float()` as a
  `PyFloat` (a rational for finite doubles, plus `nan`, `inf`, `ninf`);
* the `float()` builtin on strings (`pyFloatOfString`), following CPython's
  accepted grammar (optional sign, `nan` / `inf` / `infinity`
  case-insensitively, or a decimal literal with optional fraction, exponent
  and single underscores between digits, surrounded by optional whitespace);
* `to_float_safe`, `extract_from_row_dict`, `get_price_from_df` from the
  source, with records as association lists and tables as `RawTable`;
* the provider attempts `try_legacy` / `try_v3` and the historical fallback
  block, parameterised over an environment describing the behaviour of the
  external `vnstock` library (which is not part of this repository);
* the `/price` handler (`price`), which additionally records the list of
  invoked cascade stages as instrumentation.

Finite doubles are modelled as rationals: every concrete literal appearing
in the claims is exactly representable, and none of the claims depends on
binary rounding.
-/

/-- Result of Python `float(...)`: a finite value (modelled as a rational),
or one of the IEEE specials that `float` can produce from strings. -/
inductive PyFloat where
  | finite (q : ℚ)
  | nan
  | inf
  | ninf
deriving DecidableEq, Repr

/-- `true` exactly for finite floats (not `nan`, `inf`, `ninf`). -/
def PyFloat.isFinite : PyFloat → Bool
  | .finite _ => true
  | _ => false

/-- A Python scalar as it can appear as a record value:
`None`, an int, a float, or a string. -/
inductive PyVal where
  | none
  | int (n : ℤ)
  | float (f : PyFloat)
  | str (s : String)
deriving DecidableEq, Repr

/-- Python `str.isspace` characters relevant to `strip()` (ASCII model). -/
def isPySpace (c : Char) : Bool :=
  c = ' ' ∨ c = '\t' ∨ c = '\n' ∨ c = '\r' ∨ c = '\x0b' ∨ c = '\x0c'

/-- Python `str.strip()` on a character list (ASCII whitespace model). -/
def pyStripList (cs : List Char) : List Char :=
  ((cs.dropWhile isPySpace).reverse.dropWhile isPySpace).reverse

/-- Python `str.strip()`. -/
def pyStrip (s : String) : String := ⟨pyStripList s.data⟩

/-- Python `str.replace(",", "")`. -/
def removeCommas (s : String) : String := ⟨s.data.filter (fun c => c ≠ ',')⟩

/-- Python `str.lower()` on one character (ASCII model). -/
def pyLowerChar (c : Char) : Char :=
  if 'A' ≤ c ∧ c ≤ 'Z' then Char.ofNat (c.toNat + 32) else c

/-- Python `str.lower()` (ASCII model). -/
def pyLower (s : String) : String := ⟨s.data.map pyLowerChar⟩

/-- Python `str.upper()` on one character (ASCII model). -/
def pyUpperChar (c : Char) : Char :=
  if 'a' ≤ c ∧ c ≤ 'z' then Char.ofNat (c.toNat - 32) else c

/-- Python `str.upper()` (ASCII model). -/
def pyUpper (s : String) : String := ⟨s.data.map pyUpperChar⟩

/-- Is `c` an ASCII decimal digit. -/
def isPyDigit (c : Char) : Bool := '0' ≤ c ∧ c ≤ '9'

/-- Numeric value of an ASCII digit. -/
def digitVal (c : Char) : ℕ := c.toNat - 48

/-- Consume a maximal run of digits, allowing single underscores between
digits (CPython numeric-literal rule). Returns the accumulated value, the
number of digits consumed, and the unconsumed rest. An underscore not
followed by a digit is left unconsumed (so `"1_"` later fails the
must-consume-everything check, as in CPython). -/
def digitsLoop : List Char → ℕ → ℕ → ℕ × ℕ × List Char
  | [], acc, cnt => (acc, cnt, [])
  | c :: rest, acc, cnt =>
    if isPyDigit c then digitsLoop rest (acc * 10 + digitVal c) (cnt + 1)
    else if c = '_' then
      match rest with
      | d :: rest2 =>
        if isPyDigit d then digitsLoop rest2 (acc * 10 + digitVal d) (cnt + 1)
        else (acc, cnt, c :: rest)
      | [] => (acc, cnt, c :: rest)
    else (acc, cnt, c :: rest)

/-- A digit part must start with a digit (no leading underscore). -/
def parseDigitPart (cs : List Char) : Option (ℕ × ℕ × List Char) :=
  match cs with
  | c :: _ => if isPyDigit c then some (digitsLoop cs 0 0) else none
  | [] => none

/-- Parse the exponent that follows `e`/`E`: optional sign then a digit
part consuming the whole rest. -/
def parseExp (cs : List Char) : Option ℤ :=
  let (sgn, cs2) : ℤ × List Char :=
    match cs with
    | '+' :: r => (1, r)
    | '-' :: r => (-1, r)
    | _ => (1, cs)
  match parseDigitPart cs2 with
  | some (v, _, []) => some (sgn * (v : ℤ))
  | _ => none

/-- The rational value `sgn * (ip + fracNum / 10 ^ fd) * 10 ^ ex`, built
with `mkRat` and machine-level `Nat`/`Int` arithmetic so that it evaluates
inside the kernel. -/
def ratValue (sgn : ℤ) (ip fracNum fd : ℕ) (ex : ℤ) : ℚ :=
  let mNat : ℕ := ip * 10 ^ fd + fracNum
  if 0 ≤ ex then mkRat (sgn * ((mNat * 10 ^ ex.toNat : ℕ) : ℤ)) (10 ^ fd)
  else mkRat (sgn * (mNat : ℤ)) (10 ^ (fd + (-ex).toNat))

/-- Given sign `sgn`, integral part `ip` and fraction `fracNum` over
`10 ^ fd`, finish parsing: either end of input or an exponent part. -/
def parseAfterMantissa (sgn : ℤ) (ip : ℕ) (fracNum : ℕ) (fd : ℕ)
    (cs : List Char) : Option ℚ :=
  match cs with
  | [] => some (ratValue sgn ip fracNum fd 0)
  | e :: rest =>
    if e = 'e' ∨ e = 'E' then
      match parseExp rest with
      | some ex => some (ratValue sgn ip fracNum fd ex)
      | none => none
    else none

/-- Parse a Python float literal (after sign removal and lowercasing):
`digits [. [digits]] [exp]` or `. digits [exp]`. -/
def parseNumber (sgn : ℤ) (cs : List Char) : Option ℚ :=
  match cs with
  | '.' :: rest =>
    match parseDigitPart rest with
    | some (fv, fd, rest2) => parseAfterMantissa sgn 0 fv fd rest2
    | none => none
  | _ =>
    match parseDigitPart cs with
    | some (iv, _, rest) =>
      match rest with
      | '.' :: rest2 =>
        match parseDigitPart rest2 with
        | some (fv, fd, rest3) => parseAfterMantissa sgn iv fv fd rest3
        | none => parseAfterMantissa sgn iv 0 0 rest2
      | _ => parseAfterMantissa sgn iv 0 0 rest
    | none => none

/-- Python `float(s)` for a string `s`: strip whitespace, optional sign,
then case-insensitively `nan` / `inf` / `infinity` or a decimal literal.
`none` models `ValueError`. -/
def pyFloatOfString (s : String) : Option PyFloat :=
  let cs := pyStripList s.data
  let (sgn, cs2) : ℤ × List Char :=
    match cs with
    | '+' :: r => (1, r)
    | '-' :: r => (-1, r)
    | _ => (1, cs)
  let low := cs2.map pyLowerChar
  if low = "nan".data then some PyFloat.nan
  else if low = "inf".data ∨ low = "infinity".data then
    some (if sgn = 1 then PyFloat.inf else PyFloat.ninf)
  else
    match parseNumber sgn low with
    | some q => some (PyFloat.finite q)
    | none => none

/-- Python `str(v)` for the scalars of the model. The textual form of a
finite float is a modelling simplification (no claim depends on it); the
cases that matter are strings (identity) and `None`. -/
def pyStr : PyVal → String
  | .none => "None"
  | .str s => s
  | .int n => toString n
  | .float (.finite q) => toString q
  | .float .nan => "nan"
  | .float .inf => "inf"
  | .float .ninf => "-inf"

/-- `to_float_safe` from `app.py`: `None` stays `None`; otherwise try
`float(v)`, and on failure try `float(str(v).replace(",", "").strip())`;
any failure yields `None` (never raises). `float()` succeeds directly on
ints and floats, so the retry branch is only reachable for strings. -/
def to_float_safe : PyVal → Option PyFloat
  | .none => none
  | .int n => some (.finite (mkRat n 1))
  | .float f => some f
  | .str s =>
    match pyFloatOfString s with
    | some f => some f
    | none => pyFloatOfString (pyStrip (removeCommas s))

/-- A `RawRecord`: one row as an association list of field name to scalar,
in insertion order (modelling a Python dict, whose keys are unique). -/
abbrev RawRecord := List (String × PyVal)

/-- The dict comprehension `{k.lower(): v for k, v in row_dict.items()}`:
lowercase every key; on (post-lowercasing) duplicates the later binding
overwrites the earlier one, which `dictGet` realises by scanning from the
right. -/
def lowerKeys (row : RawRecord) : RawRecord :=
  row.map (fun kv => (pyLower kv.1, kv.2))

/-- Dict lookup `d[k]` (with `k in d` as `isSome`): the last binding of a
key wins, as in a dict built left to right. -/
def dictGet (d : RawRecord) (k : String) : Option PyVal :=
  match d.reverse.find? (fun kv => kv.1 == k) with
  | some kv => some kv.2
  | none => none

/-- One alias-scanning loop of `extract_from_row_dict` for a numeric field:
take the first key that is present with a non-`None` value and whose value
coerces via `to_float_safe`; keys whose value fails to coerce are skipped. -/
def firstCoerced (lower : RawRecord) : List String → Option PyFloat
  | [] => none
  | k :: rest =>
    match dictGet lower k with
    | some v =>
      if v ≠ PyVal.none then
        match to_float_safe v with
        | some f => some f
        | none => firstCoerced lower rest
      else firstCoerced lower rest
    | none => firstCoerced lower rest

/-- The time-scanning loop of `extract_from_row_dict`: first key present
with a non-`None` value wins, no coercion. -/
def firstTime (lower : RawRecord) : List String → Option PyVal
  | [] => none
  | k :: rest =>
    match dictGet lower k with
    | some v => if v ≠ PyVal.none then some v else firstTime lower rest
    | none => firstTime lower rest

/-- Price alias priority list from `extract_from_row_dict`. -/
def price_keys : List String :=
  ["lastprice", "pricelast", "matchprice", "match_price",
   "last", "close", "price", "closeprice", "close_price",
   "c", "match"]

/-- Time alias priority list from `extract_from_row_dict`. -/
def time_keys : List String :=
  ["time", "datetime", "date", "updatedat", "updated_at", "matchtime",
   "timestamp"]

/-- Open alias priority list from `extract_from_row_dict`. -/
def open_keys : List String :=
  ["open", "openprice", "priceopen", "o", "open_price"]

/-- Close alias priority list from `extract_from_row_dict`. -/
def close_keys : List String :=
  ["close", "closeprice", "pricelast", "lastprice", "c", "matchprice",
   "priceclose", "close_price"]

/-- The quadruple `(price, tstr, open_price, close_price)` returned by
`extract_from_row_dict` and `get_price_from_df`. -/
structure RowFields where
  price : Option PyFloat
  tstr : Option String
  open_price : Option PyFloat
  close_price : Option PyFloat
deriving DecidableEq, Repr

/-- `extract_from_row_dict` from `app.py`: empty/falsy dict gives all
absent; otherwise keys are lowercased and each canonical field scans its
alias list. -/
def extract_from_row_dict (row_dict : RawRecord) : RowFields :=
  if row_dict.isEmpty then ⟨none, none, none, none⟩
  else
    let lower := lowerKeys row_dict
    let price := firstCoerced lower price_keys
    let tval := firstTime lower time_keys
    let tstr := match tval with
      | some v => some (pyStr v)
      | none => none
    let open_price := firstCoerced lower open_keys
    let close_price := firstCoerced lower close_keys
    ⟨price, tstr, open_price, close_price⟩

/-- A `RawTable`: Python `None`, a DataFrame with rows in order, or a
malformed/foreign object on which every row-indexing access raises. -/
inductive RawTable where
  | none
  | table (rows : List RawRecord)
  | malformed
deriving DecidableEq, Repr

/-- `getattr(df, "empty", False)`: accurate for a DataFrame, `False`
(the default) for the malformed object. -/
def df_empty_attr : RawTable → Bool
  | .table rows => rows.isEmpty
  | _ => false

/-- `df.tail(1).iloc[0]` with the `df[-1]` retry: the last row of a
DataFrame; for the malformed object both accesses raise and `last` stays
`None`. -/
def df_last_row : RawTable → Option RawRecord
  | .table rows => rows.getLast?
  | _ => Option.none

/-- `df.head(1).iloc[0]`: the first row of a DataFrame; for the malformed
object the access raises and `rd_first` stays `None`. -/
def df_first_row : RawTable → Option RawRecord
  | .table rows => rows.head?
  | _ => Option.none

/-- Python truthiness of an optional row: `None` and the empty dict are
falsy. -/
def rowTruthy : Option RawRecord → Bool
  | some r => ¬ r.isEmpty
  | Option.none => false

/-- The final defensive normalization in `get_price_from_df`:
`to_float_safe` applied to a value that is already a float or `None`. -/
def to_float_safe_opt : Option PyFloat → Option PyFloat
  | some f => to_float_safe (.float f)
  | none => none

/-- `rd_last` handling of the primary extraction:
`extract_from_row_dict(rd_last) if rd_last else (None, None, None, None)`
(with `rd_last = None` when row indexing raised). -/
def extract_opt_row : Option RawRecord → RowFields
  | some r => if ¬ r.isEmpty then extract_from_row_dict r else ⟨none, none, none, none⟩
  | Option.none => ⟨none, none, none, none⟩

/-- The missing-open secondary pass: when `open_p is None and rd_first`,
take the first row's open alias match, else its price alias match, else
leave open absent. -/
def openFromFirst (e : RowFields) (rd_first : Option RawRecord) : Option PyFloat :=
  if e.open_price = none ∧ rowTruthy rd_first then
    let ef := extract_from_row_dict (rd_first.getD [])
    if ef.open_price ≠ none then ef.open_price
    else if ef.price ≠ none then ef.price
    else e.open_price
  else e.open_price

/-- The missing-close secondary pass: when `close_p is None and rd_last`,
take the last row's close alias match, else the already-resolved price,
else leave close absent. -/
def closeFromLast (e : RowFields) (price0 : Option PyFloat)
    (rd_last : Option RawRecord) : Option PyFloat :=
  if e.close_price = none ∧ rowTruthy rd_last then
    let el := extract_from_row_dict (rd_last.getD [])
    if el.close_price ≠ none then el.close_price
    else if price0 ≠ none then price0
    else e.close_price
  else e.close_price

/-- `get_price_from_df` from `app.py`: last row primary extraction, then a
first/last secondary pass for missing open/close, then defensive
normalization. Total: the `None`, empty and malformed cases all yield the
all-absent quadruple. -/
def get_price_from_df (df : RawTable) : RowFields :=
  if df = RawTable.none then ⟨none, none, none, none⟩
  else if df_empty_attr df then ⟨none, none, none, none⟩
  else
    let rd_last := df_last_row df
    let e := extract_opt_row rd_last
    let oc :=
      if e.open_price = none ∨ e.close_price = none then
        (openFromFirst e (df_first_row df), closeFromLast e e.price rd_last)
      else (e.open_price, e.close_price)
    ⟨to_float_safe_opt e.price, e.tstr, to_float_safe_opt oc.1, to_float_safe_opt oc.2⟩

/-- The quote dict returned by a successful provider attempt:
`{"provider": ..., "price": ..., "time": ..., "open": ..., "close": ...}`. -/
structure ProviderQuote where
  provider : String
  price : Option PyFloat
  time : Option String
  open_p : Option PyFloat
  close_p : Option PyFloat
deriving DecidableEq, Repr

/-- Outcome of one upstream call in `try_legacy`, where only `TypeError`
triggers the alternate-signature retry: the call returns a table, raises
`TypeError`, or raises something else. -/
inductive ExtCall where
  | ok (df : RawTable)
  | typeError
  | raised (msg : String)
deriving DecidableEq, Repr

/-- The `try kwargs-call except TypeError: positional-call` pattern of
`try_legacy`: a non-`TypeError` failure of the first call, or any failure
of the second, propagates to the surrounding handler. -/
def callWithRetry (kw pos : ExtCall) : Except String RawTable :=
  match kw with
  | .ok df => .ok df
  | .raised m => .error m
  | .typeError =>
    match pos with
    | .ok df => .ok df
    | .typeError => .error "TypeError"
    | .raised m => .error m

/-- Behaviour of the external legacy `vnstock` module for one symbol:
whether the import succeeds, which functions exist, and what each call
shape does. The module is not part of this repository, so the attempt is
parameterised over it. -/
structure LegacyEnv where
  importOk : Bool
  has_intraday : Bool
  intraday_kw : ExtCall
  intraday_pos : ExtCall
  has_historical : Bool
  historical_kw : ExtCall
  historical_pos : ExtCall
deriving DecidableEq, Repr

/-- The check-and-return pattern shared by all three attempts:
`if price is not None or open_p is not None or close_p is not None:
return ({"provider": p, ...fields...}, None)` — otherwise fall through to
`alt`. -/
def quoteOr (p : String) (r : RowFields)
    (alt : Option ProviderQuote × Option String) :
    Option ProviderQuote × Option String :=
  if r.price ≠ none ∨ r.open_price ≠ none ∨ r.close_price ≠ none then
    (some ⟨p, r.price, r.tstr, r.open_price, r.close_price⟩, none)
  else alt

/-- The `stock_historical_data` half of `try_legacy` (reached when the
intraday half is absent or yields an unpopulated quote). -/
def legacyHistorical (env : LegacyEnv) : Option ProviderQuote × Option String :=
  if env.has_historical then
    match callWithRetry env.historical_kw env.historical_pos with
    | .error m => (none, some ("legacy usage exception: " ++ m))
    | .ok df =>
      quoteOr "vnstock-legacy-history" (get_price_from_df df)
        (none, some "legacy present but returned no data")
  else (none, some "legacy present but returned no data")

/-- `try_legacy` from `app.py`: returns `(quote, None)` on success and
`(None, info)` otherwise; every exception is caught inside, so the
function itself never raises. -/
def try_legacy (env : LegacyEnv) : Option ProviderQuote × Option String :=
  if env.importOk = false then (none, some "legacy import failed")
  else if env.has_intraday then
    match callWithRetry env.intraday_kw env.intraday_pos with
    | .error m => (none, some ("legacy usage exception: " ++ m))
    | .ok df =>
      quoteOr "vnstock-legacy-intraday" (get_price_from_df df)
        (legacyHistorical env)
  else legacyHistorical env

/-- Outcome of one v3 sub-operation, whose exceptions are swallowed in
place (`except: df = None`): it yields a table or fails. -/
inductive VCall where
  | ok (df : RawTable)
  | fail
deriving DecidableEq, Repr

/-- Behaviour of the external v3 `Vnstock` interface for one symbol.
`stockOk` summarises whether any of the `v.stock(...)` construction
attempts (keyword, positional, then the VCI/TCBS/SSI source probes)
produced a stock object — every construction path converges to
`stock_obj` being an object or `None`. -/
structure V3Env where
  importOk : Bool
  stockOk : Bool
  has_intraday : Bool
  intraday : VCall
  has_history : Bool
  history : VCall
deriving DecidableEq, Repr

/-- `if df is None or getattr(df, "empty", True)` from `try_v3` — note the
default here is `True`, so the malformed object counts as empty. -/
def df_none_or_empty_defTrue : RawTable → Bool
  | .none => true
  | .table rows => rows.isEmpty
  | .malformed => true

/-- `try_v3` from `app.py`: import, stock-object construction, intraday
call, history fallback call, then the populated-quote check. -/
def try_v3 (env : V3Env) : Option ProviderQuote × Option String :=
  if env.importOk = false then (none, some "v3 import failed")
  else if env.stockOk = false then (none, some "v3 stock object creation failed")
  else
    let df1 : RawTable :=
      if env.has_intraday then
        match env.intraday with
        | .ok d => d
        | .fail => RawTable.none
      else RawTable.none
    let df2 : RawTable :=
      if df_none_or_empty_defTrue df1 then
        if env.has_history then
          match env.history with
          | .ok d => d
          | .fail => RawTable.none
        else df1
      else df1
    quoteOr "vnstock-v3" (get_price_from_df df2) (none, some "v3 returned no data")

/-- Behaviour of the external module for the historical-fallback block of
the `/price` handler. Both call shapes swallow their own exceptions
(`except: ... except: df = None`), so only the import can raise here. -/
structure FallbackEnv where
  importOk : Bool
  has_historical : Bool
  historical_kw : VCall
  historical_pos : VCall
deriving DecidableEq, Repr

/-- The populated-fields check ending the fallback block:
`if price is not None or open_p is not None or close_p is not None:
result.update(...)` — no `details` entry is written when the check fails. -/
def fallback_result (rf : RowFields) : Option RowFields × Option String :=
  if rf.price ≠ none ∨ rf.open_price ≠ none ∨ rf.close_price ≠ none then
    (some rf, none)
  else (none, none)

/-- The `# 3) fallback` block of the `/price` handler, up to and including
`get_price_from_df`. Returns the extracted fields when they are populated,
and the exception message when the import raises. The
`'Vnstock' in globals()` sub-branch is dead code: `Vnstock` is only ever
imported inside function bodies, so it never appears in module globals. -/
def fallback_stage (env : FallbackEnv) : Option RowFields × Option String :=
  if env.importOk = false then (none, some "historical import failed")
  else
    let df : RawTable :=
      if env.has_historical then
        match env.historical_kw with
        | .ok d => d
        | .fail =>
          match env.historical_pos with
          | .ok d => d
          | .fail => RawTable.none
      else RawTable.none
    fallback_result (get_price_from_df df)

/-- `normalize_symbol` from `app.py`. -/
def normalize_symbol (sym : String) : String :=
  if sym = "" then "" else pyUpper (pyStrip sym)

/-- The three query parameters of a `/price` request, each absent or a
string. -/
structure Request where
  symbol : Option String
  debug : Option String
  fallback : Option String
deriving DecidableEq, Repr

/-- The `result` dict of the `/price` handler. -/
structure PriceResult where
  symbol : String
  price : Option PyFloat
  time : Option String
  open_p : Option PyFloat
  close_p : Option PyFloat
  provider : Option String
deriving DecidableEq, Repr

/-- A value of the handler's `details` dict: `"ok"`, an info message, an
exception message, or (in debug mode) a raw provider quote. -/
inductive DetailVal where
  | ok
  | info (s : String)
  | exc (s : String)
  | quoteDetail (q : ProviderQuote)
deriving DecidableEq, Repr

/-- The observable outcome of one `/price` request: the serialized `out`
dict, whether `_debug` was attached, the `details` dict in insertion
order, and — as instrumentation of the model — the cascade stages whose
bodies ran, in order. -/
structure PriceResponse where
  out : PriceResult
  debugIncluded : Bool
  details : List (String × DetailVal)
  invoked : List String
deriving DecidableEq, Repr

/-- Behaviour of the external provider library, per symbol, for the three
cascade stages. -/
structure Env where
  legacy : String → LegacyEnv
  v3 : String → V3Env
  fb : String → FallbackEnv

/-- `sym = normalize_symbol(request.args.get("symbol") or ""); if not sym:
sym = "VNM"`. -/
def resolvedSym (req : Request) : String :=
  let raw := match req.symbol with
    | some s => if s = "" then "" else s
    | none => ""
  let sym := normalize_symbol raw
  if sym = "" then "VNM" else sym

/-- `debug = request.args.get("debug", "0") in ("1", "true", "yes")`. -/
def debugFlag (req : Request) : Bool :=
  (["1", "true", "yes"] : List String).contains (req.debug.getD "0")

/-- `result.update({...})` with the fields of a provider quote. -/
def applyQuote (r : PriceResult) (q : ProviderQuote) : PriceResult :=
  { r with price := q.price, time := q.time, open_p := q.open_p,
           close_p := q.close_p, provider := some q.provider }

/-- The body of the `/price` handler after parameter parsing, as a function
of the three attempt outcomes: stage guards, `result` / `details` updates,
and final serialization (`result["provider"] or None`). -/
def allNone (r : PriceResult) : Prop :=
  r.price = none ∧ r.open_p = none ∧ r.close_p = none

instance (r : PriceResult) : Decidable (allNone r) :=
  inferInstanceAs (Decidable (_ ∧ _ ∧ _))

/-- `result` after the legacy stage: `result.update(...)` on success,
unchanged otherwise. -/
def resultAfterLegacy (sym : String)
    (leg : Option ProviderQuote × Option String) : PriceResult :=
  match leg.1 with
  | some q => applyQuote ⟨sym, none, none, none, none, none⟩ q
  | none => ⟨sym, none, none, none, none, none⟩

/-- `details` entries written by the legacy stage. -/
def detailsLegacy (debug : Bool)
    (leg : Option ProviderQuote × Option String) :
    List (String × DetailVal) :=
  match leg.1 with
  | some q =>
    ("legacy", DetailVal.ok) ::
      (if debug then [("legacy_detail", DetailVal.quoteDetail q)] else [])
  | none => [("legacy_info", DetailVal.info (leg.2.getD ""))]

/-- `result` after the v3 stage, which only runs when the legacy stage left
all three numeric fields `None`. -/
def resultAfterV3 (r1 : PriceResult)
    (v3r : Option ProviderQuote × Option String) : PriceResult :=
  if allNone r1 then
    (match v3r.1 with
     | some q => applyQuote r1 q
     | none => r1)
  else r1

/-- `details` entries written by the v3 stage. -/
def detailsV3 (debug : Bool) (r1 : PriceResult)
    (v3r : Option ProviderQuote × Option String) :
    List (String × DetailVal) :=
  if allNone r1 then
    (match v3r.1 with
     | some q =>
       ("v3", DetailVal.ok) ::
         (if debug then [("v3_detail", DetailVal.quoteDetail q)] else [])
     | none => [("v3_info", DetailVal.info (v3r.2.getD ""))])
  else []

/-- The guard of the fallback stage: all numeric fields still `None` and
`fallback_to_close == "close"`. -/
def runFb (r2 : PriceResult) (fallback_to_close : String) : Prop :=
  allNone r2 ∧ fallback_to_close = "close"

instance (r : PriceResult) (s : String) : Decidable (runFb r s) :=
  inferInstanceAs (Decidable (_ ∧ _))

/-- `result` after the fallback stage. -/
def resultAfterFb (r2 : PriceResult) (fallback_to_close : String)
    (fb : Option RowFields × Option String) : PriceResult :=
  if runFb r2 fallback_to_close then
    (match fb.1 with
     | some rf =>
       { r2 with price := rf.price, time := rf.tstr,
                 open_p := rf.open_price, close_p := rf.close_price,
                 provider := some "historical-fallback" }
     | none => r2)
  else r2

/-- `details` entries written by the fallback stage: note that a fallback
attempt that yields no populated fields and no exception writes nothing. -/
def detailsFb (r2 : PriceResult) (fallback_to_close : String)
    (fb : Option RowFields × Option String) :
    List (String × DetailVal) :=
  if runFb r2 fallback_to_close then
    (match fb with
     | (some _, _) => [("historical_fallback", DetailVal.ok)]
     | (none, some m) => [("historical_exception", DetailVal.exc m)]
     | (none, none) => ([] : List (String × DetailVal)))
  else []

/-- `result["provider"] or None` in the serialized output. -/
def serializeProvider : Option String → Option String
  | some p => if p = "" then none else some p
  | none => none

/-- The body of the `/price` handler after parameter parsing, as a function
of the three attempt outcomes: stage guards, `result` / `details` updates,
and final serialization. `invoked` lists the stages whose bodies ran. -/
def pipeline (sym : String) (debug : Bool) (fallback_to_close : String)
    (leg v3r : Option ProviderQuote × Option String)
    (fb : Option RowFields × Option String) : PriceResponse :=
  let r1 := resultAfterLegacy sym leg
  let r2 := resultAfterV3 r1 v3r
  let r3 := resultAfterFb r2 fallback_to_close fb
  { out := { r3 with provider := serializeProvider r3.provider },
    debugIncluded := debug,
    details := detailsLegacy debug leg ++ detailsV3 debug r1 v3r ++
      detailsFb r2 fallback_to_close fb,
    invoked := "legacy" ::
      ((if allNone r1 then ["v3"] else []) ++
        (if runFb r2 fallback_to_close then ["historical-fallback"] else [])) }

/-- The `/price` handler: normalize the symbol, read the flags, and run the
three-stage cascade against the provider environment at that symbol. -/
def price (env : Env) (req : Request) : PriceResponse :=
  let sym := resolvedSym req
  pipeline sym (debugFlag req) (req.fallback.getD "close")
    (try_legacy (env.legacy sym)) (try_v3 (env.v3 sym))
    (fallback_stage (env.fb sym))

/-- A populated extraction result: at least one numeric field present. -/
def populatedRF (r : RowFields) : Prop :=
  r.price ≠ none ∨ r.open_price ≠ none ∨ r.close_price ≠ none

/-- A populated provider quote: at least one numeric field present. -/
def populatedQ (q : ProviderQuote) : Prop :=
  q.price ≠ none ∨ q.open_p ≠ none ∨ q.close_p ≠ none

/-- An optional float that is finite when present. -/
def finOrNone : Option PyFloat → Bool
  | some f => f.isFinite
  | none => true

/-- A scalar whose safe-float coercion, when it yields a value at all,
yields a finite one. -/
def coercesFin (v : PyVal) : Bool := finOrNone (to_float_safe v)

/-- `a` if present, else `b` (the shape of the open/close fallbacks). -/
def orOpt (a b : Option PyFloat) : Option PyFloat :=
  match a with
  | some x => some x
  | none => b

/-- An alias that does not deliver a value from this row: key absent, value
`None`, or value failing coercion. -/
def keyFails (lower : RawRecord) (k : String) : Bool :=
  match dictGet lower k with
  | some v => v = PyVal.none ∨ to_float_safe v = none
  | none => true

/-- An alias that delivers `f` from this row: key present with a
non-`None` value coercing to `f`. -/
def keyWins (lower : RawRecord) (k : String) (f : PyFloat) : Prop :=
  ∃ v, dictGet lower k = some v ∧ v ≠ PyVal.none ∧ to_float_safe v = some f

/-- A legacy environment whose import fails (module absent). -/
def legacyAbsent : LegacyEnv :=
  ⟨false, false, .typeError, .typeError, false, .typeError, .typeError⟩

/-- A v3 environment whose import fails. -/
def v3Absent : V3Env := ⟨false, false, false, .fail, false, .fail⟩

/-- A v3 environment whose intraday call yields one row with `close = 5`. -/
def v3Close5 : V3Env :=
  ⟨true, true, true, .ok (.table [[("close", PyVal.int 5)]]), false, .fail⟩

/-- A fallback environment with a working import but no historical
function: the stage runs, finds no data, and raises nothing. -/
def fbNoData : FallbackEnv := ⟨true, false, .fail, .fail⟩

/-- A fallback environment whose import raises. -/
def fbRaises : FallbackEnv := ⟨false, false, .fail, .fail⟩

/-- All three stages fail; the fallback stage yields no data silently. -/
def envAllFail : Env := ⟨fun _ => legacyAbsent, fun _ => v3Absent, fun _ => fbNoData⟩

/-- Legacy finds nothing, v3 succeeds with `close = 5`, and the fallback
stage would raise if it were ever invoked. -/
def envV3Wins : Env := ⟨fun _ => legacyAbsent, fun _ => v3Close5, fun _ => fbRaises⟩

/-- The populated quote produced by `v3Close5` on its one-row table. -/
def qV3Close5 : ProviderQuote :=
  ⟨"vnstock-v3", some (.finite (mkRat 5 1)), none, some (.finite (mkRat 5 1)),
    some (.finite (mkRat 5 1))⟩

/-- The spec's first/last combination table. -/
def tableC5 : List RawRecord :=
  [[("open", PyVal.int 9), ("close", PyVal.none)],
   [("open", PyVal.none), ("close", PyVal.int 11)]]

/-- The skip-on-coercion-failure record for the C6 witness. -/
def rowC6 : RawRecord := [("lastPrice", PyVal.str "n/a"), ("close", PyVal.int 20)]

theorem to_float_safe_opt_id (o : Option PyFloat) : to_float_safe_opt o = o := by
  cases o <;> rfl

theorem quoteOr_some (p : String) (r : RowFields)
    (alt : Option ProviderQuote × Option String) (q : ProviderQuote)
    (h : (quoteOr p r alt).1 = some q) :
    (populatedQ q ∧ q.provider = p) ∨ alt.1 = some q := by
  unfold quoteOr at h
  split at h
  case isTrue hp =>
    left
    simp only at h
    obtain rfl := Option.some_injective _ h
    exact ⟨hp, rfl⟩
  case isFalse => right; exact h

theorem fallback_result_some (r : RowFields) (rf : RowFields)
    (h : (fallback_result r).1 = some rf) : populatedRF rf := by
  unfold fallback_result at h
  split at h
  case isTrue hp =>
    simp only at h
    obtain rfl := Option.some_injective _ h
    exact hp
  case isFalse => simp at h

theorem legacyHistorical_some (e : LegacyEnv) (q : ProviderQuote)
    (h : (legacyHistorical e).1 = some q) :
    populatedQ q ∧ q.provider = "vnstock-legacy-history" := by
  unfold legacyHistorical at h
  split at h
  · split at h
    · simp at h
    · rcases quoteOr_some _ _ _ _ h with h' | h'
      · exact h'
      · simp at h'
  · simp at h

theorem try_legacy_some (e : LegacyEnv) (q : ProviderQuote)
    (h : (try_legacy e).1 = some q) :
    populatedQ q ∧
      (q.provider = "vnstock-legacy-intraday" ∨
        q.provider = "vnstock-legacy-history") := by
  unfold try_legacy at h
  split at h
  · simp at h
  · split at h
    · split at h
      · simp at h
      · rcases quoteOr_some _ _ _ _ h with h' | h'
        · exact ⟨h'.1, Or.inl h'.2⟩
        · obtain ⟨h1, h2⟩ := legacyHistorical_some e q h'
          exact ⟨h1, Or.inr h2⟩
    · obtain ⟨h1, h2⟩ := legacyHistorical_some e q h
      exact ⟨h1, Or.inr h2⟩

theorem try_v3_some (e : V3Env) (q : ProviderQuote)
    (h : (try_v3 e).1 = some q) :
    populatedQ q ∧ q.provider = "vnstock-v3" := by
  unfold try_v3 at h
  split at h
  · simp at h
  · split at h
    · simp at h
    · rcases quoteOr_some _ _ _ _ h with h' | h'
      · exact h'
      · simp at h'

theorem fallback_stage_some (e : FallbackEnv) (rf : RowFields)
    (h : (fallback_stage e).1 = some rf) : populatedRF rf := by
  unfold fallback_stage at h
  split at h
  · simp at h
  · exact fallback_result_some _ _ h

theorem applyQuote_fields (r : PriceResult) (q : ProviderQuote) :
    (applyQuote r q).symbol = r.symbol ∧ (applyQuote r q).price = q.price ∧
    (applyQuote r q).open_p = q.open_p ∧ (applyQuote r q).close_p = q.close_p ∧
    (applyQuote r q).time = q.time ∧ (applyQuote r q).provider = some q.provider := by
  exact ⟨rfl, rfl, rfl, rfl, rfl, rfl⟩

theorem allNone_applyQuote (r : PriceResult) (q : ProviderQuote)
    (hq : populatedQ q) : ¬ allNone (applyQuote r q) := by
  unfold populatedQ at hq
  unfold allNone applyQuote
  intro h
  rcases h with ⟨h1, h2, h3⟩
  simp only at h1 h2 h3
  tauto

theorem allNone_base (sym : String) :
    allNone ⟨sym, none, none, none, none, none⟩ := ⟨rfl, rfl, rfl⟩

theorem resultAfterLegacy_of_some (sym : String)
    (leg : Option ProviderQuote × Option String) (q : ProviderQuote)
    (h : leg.1 = some q) :
    resultAfterLegacy sym leg = applyQuote ⟨sym, none, none, none, none, none⟩ q := by
  unfold resultAfterLegacy
  rw [h]

theorem resultAfterLegacy_of_none (sym : String)
    (leg : Option ProviderQuote × Option String) (h : leg.1 = none) :
    resultAfterLegacy sym leg = ⟨sym, none, none, none, none, none⟩ := by
  unfold resultAfterLegacy
  rw [h]

theorem resultAfterV3_of_not (r1 : PriceResult)
    (v3r : Option ProviderQuote × Option String) (h : ¬ allNone r1) :
    resultAfterV3 r1 v3r = r1 := by
  unfold resultAfterV3
  rw [if_neg h]

theorem resultAfterV3_of_some (r1 : PriceResult)
    (v3r : Option ProviderQuote × Option String) (q : ProviderQuote)
    (h : allNone r1) (hq : v3r.1 = some q) :
    resultAfterV3 r1 v3r = applyQuote r1 q := by
  unfold resultAfterV3
  rw [if_pos h, hq]

theorem resultAfterV3_of_none (r1 : PriceResult)
    (v3r : Option ProviderQuote × Option String)
    (hq : v3r.1 = none) : resultAfterV3 r1 v3r = r1 := by
  unfold resultAfterV3
  split_ifs with h
  · rw [hq]
  · rfl

theorem resultAfterFb_of_not (r2 : PriceResult) (ftc : String)
    (fb : Option RowFields × Option String) (h : ¬ runFb r2 ftc) :
    resultAfterFb r2 ftc fb = r2 := by
  unfold resultAfterFb
  rw [if_neg h]

theorem resultAfterFb_of_some (r2 : PriceResult) (ftc : String)
    (fb : Option RowFields × Option String) (rf : RowFields)
    (h : runFb r2 ftc) (hrf : fb.1 = some rf) :
    resultAfterFb r2 ftc fb =
      { r2 with price := rf.price, time := rf.tstr, open_p := rf.open_price,
                close_p := rf.close_price, provider := some "historical-fallback" } := by
  unfold resultAfterFb
  rw [if_pos h, hrf]

theorem resultAfterFb_of_none (r2 : PriceResult) (ftc : String)
    (fb : Option RowFields × Option String) (hrf : fb.1 = none) :
    resultAfterFb r2 ftc fb = r2 := by
  unfold resultAfterFb
  split_ifs with h
  · rw [hrf]
  · rfl

theorem detailsV3_of_not (debug : Bool) (r1 : PriceResult)
    (v3r : Option ProviderQuote × Option String) (h : ¬ allNone r1) :
    detailsV3 debug r1 v3r = [] := by
  unfold detailsV3
  rw [if_neg h]

theorem detailsFb_of_not (r2 : PriceResult) (ftc : String)
    (fb : Option RowFields × Option String) (h : ¬ runFb r2 ftc) :
    detailsFb r2 ftc fb = [] := by
  unfold detailsFb
  rw [if_neg h]

theorem resultAfterLegacy_symbol (sym : String)
    (leg : Option ProviderQuote × Option String) :
    (resultAfterLegacy sym leg).symbol = sym := by
  rcases leg with ⟨lq, li⟩
  cases lq <;> rfl

theorem resultAfterV3_symbol (r1 : PriceResult)
    (v3r : Option ProviderQuote × Option String) :
    (resultAfterV3 r1 v3r).symbol = r1.symbol := by
  unfold resultAfterV3
  split_ifs
  · rcases v3r with ⟨vq, vi⟩
    cases vq <;> rfl
  · rfl

theorem resultAfterFb_symbol (r2 : PriceResult) (ftc : String)
    (fb : Option RowFields × Option String) :
    (resultAfterFb r2 ftc fb).symbol = r2.symbol := by
  unfold resultAfterFb
  split_ifs
  · rcases fb with ⟨fq, fi⟩
    cases fq <;> rfl
  · rfl

theorem pipeline_out_symbol (sym : String) (d : Bool) (ftc : String)
    (leg v3r : Option ProviderQuote × Option String)
    (fb : Option RowFields × Option String) :
    (pipeline sym d ftc leg v3r fb).out.symbol = sym := by
  show (resultAfterFb (resultAfterV3 (resultAfterLegacy sym leg) v3r) ftc fb).symbol = sym
  rw [resultAfterFb_symbol, resultAfterV3_symbol, resultAfterLegacy_symbol]

theorem pipeline_legacy_success (sym : String) (d : Bool) (ftc : String)
    (leg v3r : Option ProviderQuote × Option String)
    (fb : Option RowFields × Option String) (q : ProviderQuote)
    (hleg : leg.1 = some q) (hq : populatedQ q) :
    (pipeline sym d ftc leg v3r fb).invoked = ["legacy"] ∧
    (pipeline sym d ftc leg v3r fb).out.provider = serializeProvider (some q.provider) ∧
    (pipeline sym d ftc leg v3r fb).out.price = q.price ∧
    (pipeline sym d ftc leg v3r fb).out.open_p = q.open_p ∧
    (pipeline sym d ftc leg v3r fb).out.close_p = q.close_p ∧
    (pipeline sym d ftc leg v3r fb).out.time = q.time := by
  have h1 := resultAfterLegacy_of_some sym leg q hleg
  have hn : ¬ allNone (resultAfterLegacy sym leg) := by
    rw [h1]; exact allNone_applyQuote _ q hq
  have h2 : resultAfterV3 (resultAfterLegacy sym leg) v3r = resultAfterLegacy sym leg :=
    resultAfterV3_of_not _ _ hn
  have hnr : ¬ runFb (resultAfterV3 (resultAfterLegacy sym leg) v3r) ftc := by
    rw [h2]; intro hr; exact hn hr.1
  have h3 := resultAfterFb_of_not _ ftc fb hnr
  simp only [pipeline]
  rw [h3, h2, h1]
  rw [h2, h1] at hnr
  rw [h1] at hn
  rw [if_neg hn, if_neg hnr]
  exact ⟨rfl, rfl, rfl, rfl, rfl, rfl⟩

theorem pipeline_v3_success (sym : String) (d : Bool) (ftc : String)
    (leg v3r : Option ProviderQuote × Option String)
    (fb : Option RowFields × Option String) (q : ProviderQuote)
    (hleg : leg.1 = none) (hv3 : v3r.1 = some q) (hq : populatedQ q) :
    (pipeline sym d ftc leg v3r fb).invoked = ["legacy", "v3"] ∧
    (pipeline sym d ftc leg v3r fb).out.provider = serializeProvider (some q.provider) ∧
    (pipeline sym d ftc leg v3r fb).out.price = q.price ∧
    (pipeline sym d ftc leg v3r fb).out.open_p = q.open_p ∧
    (pipeline sym d ftc leg v3r fb).out.close_p = q.close_p ∧
    (pipeline sym d ftc leg v3r fb).out.time = q.time := by
  have h1 := resultAfterLegacy_of_none sym leg hleg
  have ha : allNone (resultAfterLegacy sym leg) := by rw [h1]; exact allNone_base sym
  have h2 : resultAfterV3 (resultAfterLegacy sym leg) v3r =
      applyQuote (resultAfterLegacy sym leg) q :=
    resultAfterV3_of_some _ _ q ha hv3
  have hn2 : ¬ allNone (resultAfterV3 (resultAfterLegacy sym leg) v3r) := by
    rw [h2]; exact allNone_applyQuote _ q hq
  have hnr : ¬ runFb (resultAfterV3 (resultAfterLegacy sym leg) v3r) ftc := by
    intro hr; exact hn2 hr.1
  have h3 := resultAfterFb_of_not _ ftc fb hnr
  simp only [pipeline]
  rw [h3, h2]
  rw [h2] at hnr
  rw [if_pos ha, if_neg hnr]
  exact ⟨rfl, rfl, rfl, rfl, rfl, rfl⟩

theorem detailsLegacy_of_none (d : Bool)
    (leg : Option ProviderQuote × Option String) (h : leg.1 = none) :
    detailsLegacy d leg = [("legacy_info", DetailVal.info (leg.2.getD ""))] := by
  unfold detailsLegacy
  rw [h]

theorem detailsV3_of_none (d : Bool) (r1 : PriceResult)
    (v3r : Option ProviderQuote × Option String)
    (ha : allNone r1) (h : v3r.1 = none) :
    detailsV3 d r1 v3r = [("v3_info", DetailVal.info (v3r.2.getD ""))] := by
  unfold detailsV3
  rw [if_pos ha, h]

theorem detailsFb_of_fb_none (r2 : PriceResult) (ftc : String)
    (fb : Option RowFields × Option String) (h : runFb r2 ftc)
    (hfb : fb.1 = none) :
    detailsFb r2 ftc fb =
      (match fb.2 with
       | some m => [("historical_exception", DetailVal.exc m)]
       | none => []) := by
  unfold detailsFb
  rw [if_pos h]
  rcases fb with ⟨fq, fi⟩
  obtain rfl : fq = none := hfb
  cases fi <;> rfl

theorem pipeline_exhausted (sym : String) (d : Bool) (ftc : String)
    (leg v3r : Option ProviderQuote × Option String)
    (fb : Option RowFields × Option String)
    (hleg : leg.1 = none) (hv3 : v3r.1 = none) (hfb : fb.1 = none) :
    (pipeline sym d ftc leg v3r fb).out.price = none ∧
    (pipeline sym d ftc leg v3r fb).out.open_p = none ∧
    (pipeline sym d ftc leg v3r fb).out.close_p = none ∧
    (pipeline sym d ftc leg v3r fb).out.time = none ∧
    (pipeline sym d ftc leg v3r fb).out.provider = none ∧
    (pipeline sym d ftc leg v3r fb).invoked =
      "legacy" :: "v3" :: (if ftc = "close" then ["historical-fallback"] else []) ∧
    (pipeline sym d ftc leg v3r fb).details =
      ("legacy_info", DetailVal.info (leg.2.getD "")) ::
      ("v3_info", DetailVal.info (v3r.2.getD "")) ::
      (if ftc = "close" then
        (match fb.2 with
         | some m => [("historical_exception", DetailVal.exc m)]
         | none => [])
       else []) := by
  have h1 := resultAfterLegacy_of_none sym leg hleg
  have h2 := resultAfterV3_of_none (resultAfterLegacy sym leg) v3r hv3
  have h3 := resultAfterFb_of_none (resultAfterV3 (resultAfterLegacy sym leg) v3r) ftc fb hfb
  simp only [pipeline]
  rw [h3, h2, h1]
  rw [detailsLegacy_of_none d leg hleg,
    detailsV3_of_none d _ v3r (allNone_base sym) hv3]
  by_cases hftc : ftc = "close"
  · subst hftc
    have hr : runFb (⟨sym, none, none, none, none, none⟩ : PriceResult) "close" :=
      ⟨allNone_base sym, rfl⟩
    rw [detailsFb_of_fb_none _ _ fb hr hfb]
    rw [if_pos (allNone_base sym), if_pos hr, if_pos rfl, if_pos rfl]
    exact ⟨rfl, rfl, rfl, rfl, rfl, rfl, rfl⟩
  · have hnr : ¬ runFb (⟨sym, none, none, none, none, none⟩ : PriceResult) ftc :=
      fun hr => hftc hr.2
    rw [detailsFb_of_not _ _ fb hnr]
    rw [if_pos (allNone_base sym), if_neg hnr, if_neg hftc, if_neg hftc]
    exact ⟨rfl, rfl, rfl, rfl, rfl, rfl, by simp⟩

theorem pipeline_fb_success (sym : String) (d : Bool)
    (leg v3r : Option ProviderQuote × Option String)
    (fb : Option RowFields × Option String) (rf : RowFields)
    (hleg : leg.1 = none) (hv3 : v3r.1 = none) (hfb : fb.1 = some rf) :
    (pipeline sym d "close" leg v3r fb).invoked =
      ["legacy", "v3", "historical-fallback"] ∧
    (pipeline sym d "close" leg v3r fb).out.provider = some "historical-fallback" ∧
    (pipeline sym d "close" leg v3r fb).out.price = rf.price ∧
    (pipeline sym d "close" leg v3r fb).out.open_p = rf.open_price ∧
    (pipeline sym d "close" leg v3r fb).out.close_p = rf.close_price ∧
    (pipeline sym d "close" leg v3r fb).out.time = rf.tstr := by
  have h1 := resultAfterLegacy_of_none sym leg hleg
  have h2 := resultAfterV3_of_none (resultAfterLegacy sym leg) v3r hv3
  have hr : runFb (resultAfterV3 (resultAfterLegacy sym leg) v3r) "close" := by
    rw [h2, h1]; exact ⟨allNone_base sym, rfl⟩
  have h3 := resultAfterFb_of_some (resultAfterV3 (resultAfterLegacy sym leg) v3r)
    "close" fb rf hr hfb
  simp only [pipeline]
  rw [h3, h2, h1]
  rw [h2, h1] at hr
  rw [if_pos (allNone_base sym), if_pos hr]
  refine ⟨rfl, ?_, rfl, rfl, rfl, rfl⟩
  show serializeProvider (some "historical-fallback") = some "historical-fallback"
  rfl

theorem extract_opt_row_some (r : RawRecord) :
    extract_opt_row (some r) = extract_from_row_dict r := by
  simp only [extract_opt_row]
  split_ifs with h
  · rw [List.isEmpty_iff.mp h]
    rfl
  · rfl

theorem get_price_from_df_table (rows : List RawRecord) (hne : rows ≠ []) :
    get_price_from_df (.table rows) =
      (let e := extract_opt_row rows.getLast?
       let oc :=
         if e.open_price = none ∨ e.close_price = none then
           (openFromFirst e rows.head?, closeFromLast e e.price rows.getLast?)
         else (e.open_price, e.close_price)
       ⟨to_float_safe_opt e.price, e.tstr, to_float_safe_opt oc.1,
         to_float_safe_opt oc.2⟩) := by
  unfold get_price_from_df
  rw [if_neg (by simp : ¬ (RawTable.table rows = RawTable.none)),
    if_neg (by simp [df_empty_attr, List.isEmpty_iff, hne])]
  rfl

theorem openFromFirst_of_truthy (e : RowFields) (r : RawRecord)
    (h : e.open_price = none) (hne : r.isEmpty = false) :
    openFromFirst e (some r) =
      orOpt (extract_from_row_dict r).open_price (extract_from_row_dict r).price := by
  simp only [openFromFirst]
  rw [if_pos ⟨h, by simp [rowTruthy, hne]⟩]
  simp only [Option.getD]
  rcases ho : (extract_from_row_dict r).open_price with _ | x <;>
    rcases hp : (extract_from_row_dict r).price with _ | y <;>
    simp [orOpt, ho, hp, h]

theorem openFromFirst_of_falsy (e : RowFields) (rd_first : Option RawRecord)
    (h : rowTruthy rd_first = false) : openFromFirst e rd_first = e.open_price := by
  simp only [openFromFirst]
  rw [if_neg (by simp [h])]

theorem closeFromLast_of_truthy (e : RowFields) (price0 : Option PyFloat)
    (r : RawRecord) (h : e.close_price = none) (hne : r.isEmpty = false) :
    closeFromLast e price0 (some r) =
      orOpt (extract_from_row_dict r).close_price price0 := by
  simp only [closeFromLast]
  rw [if_pos ⟨h, by simp [rowTruthy, hne]⟩]
  simp only [Option.getD]
  rcases hc : (extract_from_row_dict r).close_price with _ | x <;>
    rcases hp : price0 with _ | y <;>
    simp [orOpt, hc, hp, h]

theorem closeFromLast_of_falsy (e : RowFields) (price0 : Option PyFloat)
    (rd_last : Option RawRecord) (h : rowTruthy rd_last = false) :
    closeFromLast e price0 rd_last = e.close_price := by
  simp only [closeFromLast]
  rw [if_neg (by simp [h])]

theorem firstCoerced_append (lower : RawRecord) (pre post : List String)
    (k : String) (f : PyFloat)
    (hpre : ∀ k2 ∈ pre, keyFails lower k2 = true) (hk : keyWins lower k f) :
    firstCoerced lower (pre ++ k :: post) = some f := by
  induction pre with
  | nil =>
    obtain ⟨v, hv, hvn, hcf⟩ := hk
    simp only [List.nil_append, firstCoerced]
    rw [hv]
    simp only [if_pos hvn, hcf]
  | cons a pre ih =>
    have ha := hpre a (List.mem_cons_self a pre)
    have hrest : ∀ k2 ∈ pre, keyFails lower k2 = true :=
      fun k2 hm => hpre k2 (List.mem_cons_of_mem _ hm)
    simp only [List.cons_append, firstCoerced]
    unfold keyFails at ha
    cases hd : dictGet lower a with
    | none =>
      exact ih hrest
    | some v =>
      rw [hd] at ha
      simp only [decide_eq_true_eq] at ha
      dsimp only
      by_cases hv : v = PyVal.none
      · rw [if_neg (by simp [hv])]
        exact ih hrest
      · have hcn : to_float_safe v = none := by
          rcases ha with h1 | h2
          · exact absurd h1 hv
          · exact h2
        rw [if_pos hv, hcn]
        exact ih hrest

theorem firstCoerced_some (lower : RawRecord) (keys : List String) (f : PyFloat)
    (h : firstCoerced lower keys = some f) :
    ∃ k v, dictGet lower k = some v ∧ to_float_safe v = some f := by
  induction keys with
  | nil => simp [firstCoerced] at h
  | cons k rest ih =>
    simp only [firstCoerced] at h
    cases hd : dictGet lower k with
    | none =>
      rw [hd] at h
      exact ih h
    | some v =>
      rw [hd] at h
      dsimp only at h
      by_cases hv : v = PyVal.none
      · rw [if_neg (by simp [hv])] at h
        exact ih h
      · rw [if_pos hv] at h
        cases hc : to_float_safe v with
        | none =>
          rw [hc] at h
          exact ih h
        | some f2 =>
          rw [hc] at h
          obtain rfl := Option.some_injective _ h
          exact ⟨k, v, hd, hc⟩

theorem dictGet_mem (d : RawRecord) (k : String) (v : PyVal)
    (h : dictGet d k = some v) : ∃ k0, (k0, v) ∈ d := by
  unfold dictGet at h
  cases hf : d.reverse.find? (fun kv => kv.1 == k) with
  | none => rw [hf] at h; simp at h
  | some kv =>
    rw [hf] at h
    obtain rfl : kv.2 = v := Option.some_injective _ h
    have hm : kv ∈ d := List.mem_reverse.mp (List.mem_of_find?_eq_some hf)
    exact ⟨kv.1, hm⟩

theorem firstCoerced_fin (row : RawRecord) (keys : List String)
    (hrow : ∀ kv ∈ row, coercesFin kv.2 = true) :
    finOrNone (firstCoerced (lowerKeys row) keys) = true := by
  cases hfc : firstCoerced (lowerKeys row) keys with
  | none => rfl
  | some f =>
    obtain ⟨k, v, hd, hc⟩ := firstCoerced_some _ _ _ hfc
    obtain ⟨k0, hm⟩ := dictGet_mem _ _ _ hd
    unfold lowerKeys at hm
    obtain ⟨kv0, hkv0, heq⟩ := List.mem_map.mp hm
    have hv : kv0.2 = v := congrArg Prod.snd heq
    have hfin := hrow kv0 hkv0
    unfold coercesFin at hfin
    rw [hv, hc] at hfin
    exact hfin

theorem extract_fin (row : RawRecord)
    (hrow : ∀ kv ∈ row, coercesFin kv.2 = true) :
    finOrNone (extract_from_row_dict row).price = true ∧
    finOrNone (extract_from_row_dict row).open_price = true ∧
    finOrNone (extract_from_row_dict row).close_price = true := by
  unfold extract_from_row_dict
  split_ifs with h
  · exact ⟨rfl, rfl, rfl⟩
  · exact ⟨firstCoerced_fin row price_keys hrow, firstCoerced_fin row open_keys hrow,
      firstCoerced_fin row close_keys hrow⟩

theorem openFromFirst_fin (e : RowFields) (rd_first : Option RawRecord)
    (he : finOrNone e.open_price = true)
    (ho : finOrNone (extract_from_row_dict (rd_first.getD [])).open_price = true)
    (hp : finOrNone (extract_from_row_dict (rd_first.getD [])).price = true) :
    finOrNone (openFromFirst e rd_first) = true := by
  simp only [openFromFirst]
  split_ifs <;> first | exact ho | exact hp | exact he

theorem closeFromLast_fin (e : RowFields) (price0 : Option PyFloat)
    (rd_last : Option RawRecord)
    (he : finOrNone e.close_price = true)
    (hc : finOrNone (extract_from_row_dict (rd_last.getD [])).close_price = true)
    (hp0 : finOrNone price0 = true) :
    finOrNone (closeFromLast e price0 rd_last) = true := by
  simp only [closeFromLast]
  split_ifs <;> first | exact hc | exact hp0 | exact he

theorem get_price_from_df_fin (rows : List RawRecord)
    (hrow : ∀ r ∈ rows, ∀ kv ∈ r, coercesFin kv.2 = true) :
    finOrNone (get_price_from_df (.table rows)).price = true ∧
    finOrNone (get_price_from_df (.table rows)).open_price = true ∧
    finOrNone (get_price_from_df (.table rows)).close_price = true := by
  by_cases hne : rows = []
  · subst hne
    exact ⟨rfl, rfl, rfl⟩
  · rw [get_price_from_df_table rows hne]
    obtain ⟨rl, hrl⟩ := Option.isSome_iff_exists.mp
      (List.getLast?_isSome.mpr hne)
    obtain ⟨r0, hr0⟩ : ∃ r0, rows.head? = some r0 := by
      cases rows with
      | nil => exact absurd rfl hne
      | cons a l => exact ⟨a, rfl⟩
    have hlmem : rl ∈ rows := List.mem_of_getLast?_eq_some hrl
    have hfmem : r0 ∈ rows := List.mem_of_mem_head? (Option.mem_def.mpr hr0)
    have hefin := extract_fin rl (hrow rl hlmem)
    have hffin := extract_fin r0 (hrow r0 hfmem)
    simp only [hrl, hr0, extract_opt_row_some]
    refine ⟨?_, ?_, ?_⟩
    · rw [to_float_safe_opt_id]
      exact hefin.1
    · split_ifs with h
      · simp only
        rw [to_float_safe_opt_id]
        exact openFromFirst_fin _ _ hefin.2.1 (by simpa using hffin.2.1)
          (by simpa using hffin.1)
      · simp only
        rw [to_float_safe_opt_id]
        exact hefin.2.1
    · split_ifs with h
      · simp only
        rw [to_float_safe_opt_id]
        exact closeFromLast_fin _ _ _ hefin.2.2 (by simpa using hefin.2.2)
          hefin.1
      · simp only
        rw [to_float_safe_opt_id]
        exact hefin.2.2

theorem serializeProvider_of_ne (p : String) (hp : p ≠ "") :
    serializeProvider (some p) = some p := by
  simp only [serializeProvider]
  rw [if_neg hp]

theorem pipeline_no_fb (sym : String) (d : Bool) (ftc : String)
    (leg v3r : Option ProviderQuote × Option String)
    (fb : Option RowFields × Option String) (hftc : ftc ≠ "close") :
    "historical-fallback" ∉ (pipeline sym d ftc leg v3r fb).invoked ∧
    (leg.1 = none → v3r.1 = none →
      (pipeline sym d ftc leg v3r fb).out.price = none ∧
      (pipeline sym d ftc leg v3r fb).out.open_p = none ∧
      (pipeline sym d ftc leg v3r fb).out.close_p = none ∧
      (pipeline sym d ftc leg v3r fb).out.time = none ∧
      (pipeline sym d ftc leg v3r fb).out.provider = none ∧
      (pipeline sym d ftc leg v3r fb).invoked = ["legacy", "v3"] ∧
      (pipeline sym d ftc leg v3r fb).details =
        [("legacy_info", DetailVal.info (leg.2.getD "")),
         ("v3_info", DetailVal.info (v3r.2.getD ""))]) := by
  have hnr : ∀ r2 : PriceResult, ¬ runFb r2 ftc := fun r2 hr => hftc hr.2
  constructor
  · simp only [pipeline]
    rw [if_neg (hnr _)]
    split_ifs <;> simp
  · intro hleg hv3
    have h1 := resultAfterLegacy_of_none sym leg hleg
    have h2 := resultAfterV3_of_none (resultAfterLegacy sym leg) v3r hv3
    have h3 := resultAfterFb_of_not (resultAfterV3 (resultAfterLegacy sym leg) v3r)
      ftc fb (hnr _)
    have hdf := detailsFb_of_not (resultAfterV3 (resultAfterLegacy sym leg) v3r)
      ftc fb (hnr _)
    simp only [pipeline]
    rw [detailsLegacy_of_none d leg hleg,
      detailsV3_of_none d (resultAfterLegacy sym leg) v3r
        (by rw [h1]; exact allNone_base sym) hv3, hdf]
    rw [h3, h2, h1]
    rw [if_pos (allNone_base sym), if_neg (hnr _)]
    exact ⟨rfl, rfl, rfl, rfl, rfl, by simp, by simp⟩

theorem price_out_symbol (env : Env) (req : Request) :
    (price env req).out.symbol = resolvedSym req := by
  simp only [price]
  exact pipeline_out_symbol _ _ _ _ _ _

/-- C7: safe-float coercion accepts native numbers directly; for strings it
retries after removing commas and stripping whitespace, so `"1,234.5"`
coerces to `1234.5` and `"n/a"` to absent; it is total (never raises),
returning a value or absence for every input. -/
theorem c7_safe_float_coercion (n : ℤ) (f : PyFloat) (v : PyVal) :
    to_float_safe (.int n) = some (.finite (mkRat n 1)) ∧
    to_float_safe (.float f) = some f ∧
    to_float_safe (.str "1,234.5") = some (.finite (mkRat 2469 2)) ∧
    to_float_safe (.str "n/a") = none ∧
    (∀ s : String, pyFloatOfString s = none →
      to_float_safe (.str s) = pyFloatOfString (pyStrip (removeCommas s))) ∧
    (to_float_safe v = none ∨ ∃ g, to_float_safe v = some g) := by
  refine ⟨rfl, rfl, by decide, by decide, ?_, ?_⟩
  · intro s h
    simp only [to_float_safe]
    rw [h]
  · cases hv : to_float_safe v with
    | none => exact Or.inl rfl
    | some g => exact Or.inr ⟨g, rfl⟩

/-- C7 witness: the theorem instantiated at concrete inputs, with the
inner implication discharged on the string `"1,234.5"`. -/
theorem c7_safe_float_coercion_witness :
    pyFloatOfString "1,234.5" = none ∧
    to_float_safe (.str "1,234.5") =
      pyFloatOfString (pyStrip (removeCommas "1,234.5")) :=
  ⟨by decide, (c7_safe_float_coercion 0 .nan .none).2.2.2.2.1 "1,234.5" (by decide)⟩

/-- C8: the table reader is total — it is a function returning a
`RowFields` value for every table — and the `None`, empty and malformed
tables all yield the all-absent quadruple. -/
theorem c8_table_reader_total (df : RawTable) :
    get_price_from_df RawTable.none = ⟨none, none, none, none⟩ ∧
    get_price_from_df (RawTable.table []) = ⟨none, none, none, none⟩ ∧
    get_price_from_df RawTable.malformed = ⟨none, none, none, none⟩ ∧
    ∃ r : RowFields, get_price_from_df df = r :=
  ⟨by decide, by decide, by decide, ⟨_, rfl⟩⟩

/-- C9: the symbol echoed in the response (and used for resolution) is the
input trimmed and upper-cased; empty or whitespace-only input defaults to
`"VNM"`, as does an absent parameter. -/
theorem c9_symbol_normalization (env : Env) (s : String) (d fb : Option String) :
    (price env ⟨some s, d, fb⟩).out.symbol =
      (if pyUpper (pyStrip s) = "" then "VNM" else pyUpper (pyStrip s)) ∧
    (price env ⟨none, d, fb⟩).out.symbol = "VNM" := by
  constructor
  · rw [price_out_symbol]
    unfold resolvedSym normalize_symbol
    by_cases hs : s = ""
    · subst hs
      rfl
    · simp only [if_neg hs]
  · rw [price_out_symbol]
    rfl

/-- C2 counterexample: the record `{"price": "nan"}` extracts a price of
NaN — Python `float("nan")` succeeds — so the numeric fields are not
always finite-or-absent. -/
theorem c2_counterexample :
    (get_price_from_df (.table [[("price", PyVal.str "nan")]])).price =
      some PyFloat.nan ∧
    PyFloat.nan.isFinite = false := by
  decide

/-- C2 amended: every numeric field produced by extraction and
normalization is a float or absent, and it is finite-or-absent whenever
every scalar in the table coerces to a finite value or fails coercion
(strings such as `"nan"` / `"inf"` are the only way to break finiteness). -/
theorem c2_fields_finite_amended (rows : List RawRecord)
    (hrow : ∀ r ∈ rows, ∀ kv ∈ r, coercesFin kv.2 = true) :
    (∀ r ∈ rows,
      finOrNone (extract_from_row_dict r).price = true ∧
      finOrNone (extract_from_row_dict r).open_price = true ∧
      finOrNone (extract_from_row_dict r).close_price = true) ∧
    (finOrNone (get_price_from_df (.table rows)).price = true ∧
     finOrNone (get_price_from_df (.table rows)).open_price = true ∧
     finOrNone (get_price_from_df (.table rows)).close_price = true) :=
  ⟨fun r hm => extract_fin r (hrow r hm), get_price_from_df_fin rows hrow⟩

/-- C2 witness: the amended theorem applied to a one-row table whose only
value coerces to the finite `1234.5`. -/
theorem c2_fields_finite_amended_witness :
    (∀ r ∈ [[("price", PyVal.str "1,234.5")]], ∀ kv ∈ r, coercesFin kv.2 = true) ∧
    (finOrNone (get_price_from_df (.table [[("price", PyVal.str "1,234.5")]])).price = true ∧
     finOrNone (get_price_from_df (.table [[("price", PyVal.str "1,234.5")]])).open_price = true ∧
     finOrNone (get_price_from_df (.table [[("price", PyVal.str "1,234.5")]])).close_price = true) :=
  ⟨by decide,
    (c2_fields_finite_amended [[("price", PyVal.str "1,234.5")]] (by decide)).2⟩

/-- C1: in every `/price` response, `provider` is present if and only if at
least one of `price`, `open`, `close` is present: attempts return quotes
only when populated, and the exhausted result has no provider. -/
theorem c1_provider_iff_some_field (env : Env) (req : Request) :
    ((price env req).out.provider ≠ none ↔
      ((price env req).out.price ≠ none ∨ (price env req).out.open_p ≠ none ∨
        (price env req).out.close_p ≠ none)) := by
  simp only [price]
  rcases hleg : (try_legacy (env.legacy (resolvedSym req))).1 with _ | q
  · rcases hv3 : (try_v3 (env.v3 (resolvedSym req))).1 with _ | q
    · by_cases hftc : req.fallback.getD "close" = "close"
      · rcases hfb : (fallback_stage (env.fb (resolvedSym req))).1 with _ | rf
        · obtain ⟨o1, o2, o3, _, o5, _, _⟩ := pipeline_exhausted (resolvedSym req)
            (debugFlag req) (req.fallback.getD "close") _ _ _ hleg hv3 hfb
          rw [o1, o2, o3, o5]
          simp
        · have hpop := fallback_stage_some _ _ hfb
          rw [hftc]
          obtain ⟨_, hpr, hp, ho, hc, _⟩ := pipeline_fb_success (resolvedSym req)
            (debugFlag req) _ _ _ rf hleg hv3 hfb
          rw [hpr, hp, ho, hc]
          unfold populatedRF at hpop
          exact ⟨fun _ => hpop, fun _ => by simp⟩
      · obtain ⟨_, h2⟩ := pipeline_no_fb (resolvedSym req) (debugFlag req) _ _ _ _ hftc
        obtain ⟨o1, o2, o3, _, o5, _, _⟩ := h2 hleg hv3
        rw [o1, o2, o3, o5]
        simp
    · obtain ⟨hq, hpv⟩ := try_v3_some _ q hv3
      obtain ⟨_, hpr, hp, ho, hc, _⟩ := pipeline_v3_success (resolvedSym req)
        (debugFlag req) (req.fallback.getD "close") _ _ _ q hleg hv3 hq
      rw [hpr, hp, ho, hc, serializeProvider_of_ne q.provider (by rw [hpv]; decide)]
      unfold populatedQ at hq
      exact ⟨fun _ => hq, fun _ => by simp⟩
  · obtain ⟨hq, hprov⟩ := try_legacy_some _ q hleg
    have hne : q.provider ≠ "" := by rcases hprov with h | h <;> rw [h] <;> decide
    obtain ⟨_, hpr, hp, ho, hc, _⟩ := pipeline_legacy_success (resolvedSym req)
      (debugFlag req) (req.fallback.getD "close") _ _ _ q hleg hq
    rw [hpr, hp, ho, hc, serializeProvider_of_ne q.provider hne]
    unfold populatedQ at hq
    exact ⟨fun _ => hq, fun _ => by simp⟩

/-- C3: the cascade short-circuits on the first populated quote. If the
legacy attempt succeeds, only the legacy stage runs and its identifier is
the response provider; if legacy fails and v3 succeeds, exactly the legacy
and v3 stages run — the fallback stage is never invoked — and v3's
identifier is the response provider. -/
theorem c3_cascade_short_circuit (env : Env) (req : Request) (q : ProviderQuote) :
    ((try_legacy (env.legacy (resolvedSym req))).1 = some q →
      (price env req).invoked = ["legacy"] ∧
      (price env req).out.provider = some q.provider) ∧
    ((try_legacy (env.legacy (resolvedSym req))).1 = none →
      (try_v3 (env.v3 (resolvedSym req))).1 = some q →
      (price env req).invoked = ["legacy", "v3"] ∧
      (price env req).out.provider = some q.provider) := by
  constructor
  · intro hleg
    obtain ⟨hq, hprov⟩ := try_legacy_some _ q hleg
    have hne : q.provider ≠ "" := by rcases hprov with h | h <;> rw [h] <;> decide
    simp only [price]
    obtain ⟨hi, hpr, _, _, _, _⟩ := pipeline_legacy_success (resolvedSym req)
      (debugFlag req) (req.fallback.getD "close") _ _ _ q hleg hq
    exact ⟨hi, by rw [hpr, serializeProvider_of_ne _ hne]⟩
  · intro hleg hv3
    obtain ⟨hq, hprov⟩ := try_v3_some _ q hv3
    have hne : q.provider ≠ "" := by rw [hprov]; decide
    simp only [price]
    obtain ⟨hi, hpr, _, _, _, _⟩ := pipeline_v3_success (resolvedSym req)
      (debugFlag req) (req.fallback.getD "close") _ _ _ q hleg hv3 hq
    exact ⟨hi, by rw [hpr, serializeProvider_of_ne _ hne]⟩

/-- C3 witness: legacy fails, v3 returns `close = 5`, the fallback stage is
configured to raise if invoked — and it is not invoked. -/
theorem c3_cascade_short_circuit_witness :
    (try_legacy (envV3Wins.legacy (resolvedSym ⟨some "vnm", none, none⟩))).1 = none ∧
    (try_v3 (envV3Wins.v3 (resolvedSym ⟨some "vnm", none, none⟩))).1 = some qV3Close5 ∧
    ((price envV3Wins ⟨some "vnm", none, none⟩).invoked = ["legacy", "v3"] ∧
     (price envV3Wins ⟨some "vnm", none, none⟩).out.provider = some qV3Close5.provider) :=
  ⟨by decide, by decide,
    (c3_cascade_short_circuit envV3Wins ⟨some "vnm", none, none⟩ qV3Close5).2
      (by decide) (by decide)⟩

theorem pipeline_invoked_all (sym : String) (d : Bool)
    (leg v3r : Option ProviderQuote × Option String)
    (fb : Option RowFields × Option String)
    (hleg : leg.1 = none) (hv3 : v3r.1 = none) :
    (pipeline sym d "close" leg v3r fb).invoked =
      ["legacy", "v3", "historical-fallback"] := by
  have h1 := resultAfterLegacy_of_none sym leg hleg
  have h2 := resultAfterV3_of_none (resultAfterLegacy sym leg) v3r hv3
  simp only [pipeline]
  rw [h2, h1]
  split_ifs with hA hB <;> simp_all [runFb, allNone]

/-- C4 counterexample: with all three stages failing (legacy and v3 import
failures, fallback import fine but no data and no exception), three stages
are attempted but the diagnostic trail has only two entries — the silent
no-data fallback attempt leaves no trail entry. -/
theorem c4_counterexample :
    (price envAllFail ⟨some "vnm", none, none⟩).invoked =
      ["legacy", "v3", "historical-fallback"] ∧
    (price envAllFail ⟨some "vnm", none, none⟩).details.map Prod.fst =
      ["legacy_info", "v3_info"] := by
  decide

/-- C4 amended: when every attempt fails to produce a populated quote,
resolution terminates (no exception can escape: each stage is total) with
`price`, `open`, `close`, `time` and `provider` all absent; the trail
contains one entry for each of the legacy and v3 stage, while the
historical-fallback stage contributes an entry only when its import raises
— a silently data-less fallback attempt adds none. -/
theorem c4_exhausted_amended (env : Env) (req : Request)
    (hleg : (try_legacy (env.legacy (resolvedSym req))).1 = none)
    (hv3 : (try_v3 (env.v3 (resolvedSym req))).1 = none)
    (hfb : (fallback_stage (env.fb (resolvedSym req))).1 = none) :
    (price env req).out.price = none ∧
    (price env req).out.open_p = none ∧
    (price env req).out.close_p = none ∧
    (price env req).out.time = none ∧
    (price env req).out.provider = none ∧
    (price env req).invoked =
      "legacy" :: "v3" ::
        (if req.fallback.getD "close" = "close" then ["historical-fallback"] else []) ∧
    (price env req).details =
      ("legacy_info",
        DetailVal.info ((try_legacy (env.legacy (resolvedSym req))).2.getD "")) ::
      ("v3_info",
        DetailVal.info ((try_v3 (env.v3 (resolvedSym req))).2.getD "")) ::
      (if req.fallback.getD "close" = "close" then
        (match (fallback_stage (env.fb (resolvedSym req))).2 with
         | some m => [("historical_exception", DetailVal.exc m)]
         | none => [])
       else []) := by
  simp only [price]
  exact pipeline_exhausted _ _ _ _ _ _ hleg hv3 hfb

/-- C4 witness: the amended theorem at the all-fail environment. -/
theorem c4_exhausted_amended_witness :
    ((try_legacy (envAllFail.legacy (resolvedSym ⟨some "vnm", none, none⟩))).1 = none ∧
     (try_v3 (envAllFail.v3 (resolvedSym ⟨some "vnm", none, none⟩))).1 = none ∧
     (fallback_stage (envAllFail.fb (resolvedSym ⟨some "vnm", none, none⟩))).1 = none) ∧
    ((price envAllFail ⟨some "vnm", none, none⟩).out.price = none ∧
     (price envAllFail ⟨some "vnm", none, none⟩).out.provider = none) := by
  refine ⟨⟨by decide, by decide, by decide⟩, ?_⟩
  obtain ⟨h1, _, _, _, h5, _, _⟩ := c4_exhausted_amended envAllFail
    ⟨some "vnm", none, none⟩ (by decide) (by decide) (by decide)
  exact ⟨h1, h5⟩

/-- C10: a `fallback` parameter present with any value other than
`"close"` disables the historical-fallback stage — it is never invoked,
and when both other attempts fail the response is the all-absent exhausted
quote; an absent parameter defaults to `"close"` and the stage runs. -/
theorem c10_fallback_param (env : Env) (req : Request) (fv : String) :
    (req.fallback = some fv → fv ≠ "close" →
      "historical-fallback" ∉ (price env req).invoked ∧
      ((try_legacy (env.legacy (resolvedSym req))).1 = none →
       (try_v3 (env.v3 (resolvedSym req))).1 = none →
       (price env req).out.price = none ∧ (price env req).out.open_p = none ∧
       (price env req).out.close_p = none ∧ (price env req).out.provider = none)) ∧
    (req.fallback = none →
      (try_legacy (env.legacy (resolvedSym req))).1 = none →
      (try_v3 (env.v3 (resolvedSym req))).1 = none →
      (price env req).invoked = ["legacy", "v3", "historical-fallback"]) := by
  constructor
  · intro hp hne
    have hftc : req.fallback.getD "close" ≠ "close" := by
      rw [hp]
      simpa using hne
    simp only [price]
    obtain ⟨h1, h2⟩ := pipeline_no_fb _ _ _ _ _ _ hftc
    refine ⟨h1, fun hleg hv3 => ?_⟩
    obtain ⟨o1, o2, o3, _, o5, _, _⟩ := h2 hleg hv3
    exact ⟨o1, o2, o3, o5⟩
  · intro hp hleg hv3
    have hftc : req.fallback.getD "close" = "close" := by rw [hp]; rfl
    simp only [price]
    rw [hftc]
    exact pipeline_invoked_all _ _ _ _ _ hleg hv3

/-- C10 witness: with `fallback=none` in the query, the fallback stage is
not invoked even though legacy and v3 both fail, and the response is the
all-absent quote. -/
theorem c10_fallback_param_witness :
    ((⟨some "vnm", none, some "none"⟩ : Request).fallback = some "none" ∧
     "none" ≠ "close" ∧
     (try_legacy (envAllFail.legacy (resolvedSym ⟨some "vnm", none, some "none"⟩))).1 = none ∧
     (try_v3 (envAllFail.v3 (resolvedSym ⟨some "vnm", none, some "none"⟩))).1 = none) ∧
    ("historical-fallback" ∉ (price envAllFail ⟨some "vnm", none, some "none"⟩).invoked ∧
     (price envAllFail ⟨some "vnm", none, some "none"⟩).out.price = none ∧
     (price envAllFail ⟨some "vnm", none, some "none"⟩).out.provider = none) := by
  refine ⟨⟨rfl, by decide, by decide, by decide⟩, ?_⟩
  obtain ⟨h1, h2⟩ := (c10_fallback_param envAllFail ⟨some "vnm", none, some "none"⟩
    "none").1 rfl (by decide)
  obtain ⟨o1, _, _, o5⟩ := h2 (by decide) (by decide)
  exact ⟨h1, o1, o5⟩

/-- C5: when the last row's extraction leaves open absent, the result's
open is the first row's open alias match, falling back to the first row's
price alias match; when it leaves close absent, the result's close is the
already-resolved price; and the two-row table of the spec yields
`open = 9`, `close = 11`. -/
theorem c5_first_last_combination (rows : List RawRecord)
    (r_first r_last : RawRecord)
    (h1 : rows.head? = some r_first) (h2 : rows.getLast? = some r_last) :
    ((extract_from_row_dict r_last).open_price = none →
      (get_price_from_df (.table rows)).open_price =
        orOpt (extract_from_row_dict r_first).open_price
          (extract_from_row_dict r_first).price) ∧
    ((extract_from_row_dict r_last).close_price = none →
      (get_price_from_df (.table rows)).close_price =
        (extract_from_row_dict r_last).price) ∧
    get_price_from_df (.table [[("open", PyVal.int 9), ("close", PyVal.none)],
        [("open", PyVal.none), ("close", PyVal.int 11)]]) =
      ⟨some (.finite (mkRat 11 1)), none, some (.finite (mkRat 9 1)),
        some (.finite (mkRat 11 1))⟩ := by
  have hne : rows ≠ [] := by
    intro h
    subst h
    simp at h1
  rw [get_price_from_df_table rows hne]
  simp only [h1, h2, extract_opt_row_some]
  refine ⟨?_, ?_, by decide⟩
  · intro ho
    rw [if_pos (Or.inl ho)]
    dsimp only
    rw [to_float_safe_opt_id]
    cases hE : r_first.isEmpty with
    | false => exact openFromFirst_of_truthy _ _ ho hE
    | true =>
      rw [openFromFirst_of_falsy _ _ (by simp [rowTruthy, hE]), ho]
      rw [List.isEmpty_iff.mp hE]
      rfl
  · intro hc
    rw [if_pos (Or.inr hc)]
    dsimp only
    rw [to_float_safe_opt_id]
    cases hE : r_last.isEmpty with
    | false =>
      rw [closeFromLast_of_truthy _ _ _ hc hE, hc]
      rfl
    | true =>
      rw [closeFromLast_of_falsy _ _ _ (by simp [rowTruthy, hE]), hc]
      rw [List.isEmpty_iff.mp hE]
      rfl

/-- C5 witness: the first/last rule applied to the spec's two-row table,
whose last row lacks an open value. -/
theorem c5_first_last_combination_witness :
    (tableC5.head? = some [("open", PyVal.int 9), ("close", PyVal.none)] ∧
     tableC5.getLast? = some [("open", PyVal.none), ("close", PyVal.int 11)] ∧
     (extract_from_row_dict [("open", PyVal.none), ("close", PyVal.int 11)]).open_price = none) ∧
    (get_price_from_df (.table tableC5)).open_price =
      orOpt (extract_from_row_dict [("open", PyVal.int 9), ("close", PyVal.none)]).open_price
        (extract_from_row_dict [("open", PyVal.int 9), ("close", PyVal.none)]).price :=
  ⟨⟨by decide, by decide, by decide⟩,
    (c5_first_last_combination tableC5
      [("open", PyVal.int 9), ("close", PyVal.none)]
      [("open", PyVal.none), ("close", PyVal.int 11)]
      (by decide) (by decide)).1 (by decide)⟩

/-- C6: each canonical field consults its priority-ordered alias list and
the first alias present whose value coerces wins; a record with both
`lastPrice: 10` and `close: 20` extracts price `10`, and an alias whose
value fails coercion (`lastPrice: "n/a"`) is skipped in favour of the next
(`close: 20`). -/
theorem c6_alias_priority (row : RawRecord) (pre post : List String)
    (k : String) (f : PyFloat)
    (hsplit : price_keys = pre ++ k :: post)
    (hpre : ∀ k2 ∈ pre, keyFails (lowerKeys row) k2 = true)
    (hk : keyWins (lowerKeys row) k f) :
    (extract_from_row_dict row).price = some f ∧
    (extract_from_row_dict [("lastPrice", PyVal.int 10), ("close", PyVal.int 20)]).price =
      some (.finite (mkRat 10 1)) ∧
    (extract_from_row_dict [("lastPrice", PyVal.str "n/a"), ("close", PyVal.int 20)]).price =
      some (.finite (mkRat 20 1)) := by
  refine ⟨?_, by decide, by decide⟩
  have hner : ¬ row.isEmpty = true := by
    obtain ⟨v, hv, _, _⟩ := hk
    intro hE
    rw [List.isEmpty_iff.mp hE] at hv
    simp [lowerKeys, dictGet] at hv
  unfold extract_from_row_dict
  rw [if_neg hner]
  dsimp only
  rw [hsplit]
  exact firstCoerced_append _ _ _ _ _ hpre hk

/-- C6 witness: in `rowC6`, every price alias before `"close"` fails
(`lastprice` is present but `"n/a"` does not coerce), `"close"` wins with
`20`, and extraction indeed returns `20`. -/
theorem c6_alias_priority_witness :
    (price_keys =
      ["lastprice", "pricelast", "matchprice", "match_price", "last"] ++
        "close" :: ["price", "closeprice", "close_price", "c", "match"] ∧
     (∀ k2 ∈ ["lastprice", "pricelast", "matchprice", "match_price", "last"],
       keyFails (lowerKeys rowC6) k2 = true) ∧
     dictGet (lowerKeys rowC6) "close" = some (PyVal.int 20)) ∧
    (extract_from_row_dict rowC6).price = some (.finite (mkRat 20 1)) :=
  ⟨⟨by decide, by decide, by decide⟩,
    (c6_alias_priority rowC6
      ["lastprice", "pricelast", "matchprice", "match_price", "last"]
      ["price", "closeprice", "close_price", "c", "match"] "close"
      (.finite (mkRat 20 1)) (by decide) (by decide)
      ⟨PyVal.int 20, by decide, by decide, by decide⟩).1⟩
